import Mathlib

/-!
# Verification of the optimal-credit-length estimation engine

Shallow embedding of `src/finance/optimal_credit_length_estimation`:
the investment model (`detail/investment.py`), the amortization models
(`credit/simple_credit.py`) and the investment-of-surplus model
(`credit/simple_credit.py` and `credit/credit_with_investment.py`, whose
bodies are identical).

Conventions of the embedding:
* Python floats are modelled as exact rationals (`ℚ`); decimal literals such
  as `0.01` denote the corresponding rational.
* Python `round(x, 2)` is modelled as `round2`, rounding half to even
  (banker's rounding, Python's documented behaviour) at two decimals.
* A Python `raise ValueError` is modelled as `Except.error` carrying the
  message; normal return is `Except.ok`.  An exception raised inside a loop
  over the term range propagates, so the sweep functions that can raise
  return `Except String (List (ℕ × CreditCalculationResult))`.
* Python dicts keyed by the year preserve insertion order; they are
  modelled as association lists `List (ℕ × CreditCalculationResult)` in
  insertion order.
* Python `**` with a rational base: every call site in this repository
  raises to an integer power (`months = years * 12` with integral
  `years * 12`), modelled by `qpow` below via the numerator of the
  exponent; for a non-integral exponent Python would compute a real power,
  which is outside `ℚ` and outside every call path proved about here.
-/

/-- Round a rational to the nearest integer, ties to even: the rounding mode
of Python's built-in `round`. -/
def roundHalfEven (q : ℚ) : ℤ :=
  let f := ⌊q⌋
  let frac := q - f
  if frac < 1/2 then f
  else if 1/2 < frac then f + 1
  else if f % 2 = 0 then f else f + 1

/-- Python's `round(x, 2)`: two-decimal rounding, ties to even. -/
def round2 (q : ℚ) : ℚ := (roundHalfEven (q * 100) : ℚ) / 100

/-- Python `base ** exponent` for the rational exponents this repository
produces: every call passes an integral exponent (a month count), where the
power is `base ^ exponent.num`.  (For a non-integral exponent Python computes
a real power; no call site reached by the theorems below does.) -/
def qpow (b e : ℚ) : ℚ := b ^ e.num

/-- `detail/investment.py`, `calculate_simple_investment`: future value of a
lump sum plus a monthly-contribution annuity, with the four argument guards,
rounded to cents.  `Except.error` models the `ValueError` raises. -/
def calculate_simple_investment
    (initial_investment monthly_income interest_rate years : ℚ) :
    Except String ℚ :=
  if initial_investment < 0 then .error "Initial investment cannot be negative"
  else if monthly_income < 0 then .error "Monthly income cannot be negative"
  else if interest_rate < 0 then .error "Interest rate cannot be negative"
  else if years ≤ 0 then .error "Years must be positive"
  else
    let monthly_rate := interest_rate / 100 / 12
    let months := years * 12
    let initial_future_value := initial_investment * qpow (1 + monthly_rate) months
    let annuity_future_value :=
      if monthly_rate = 0 then monthly_income * months
      else monthly_income * ((qpow (1 + monthly_rate) months - 1) / monthly_rate)
    .ok (round2 (initial_future_value + annuity_future_value))

/-- Modelled from the spec's words for claim C1 (refinement side):
`round(initialAmount·(1+r)^m + S, 2)` with `r = annualRatePercent/100/12`,
`m = years·12`, and `S = monthlyContribution·m` when `r = 0`, otherwise
`S = monthlyContribution·((1+r)^m − 1)/r`. -/
def computeBalanceSpec
    (initialAmount monthlyContribution annualRatePercent years : ℚ) : ℚ :=
  let r := annualRatePercent / 100 / 12
  let m := years * 12
  let fvLump := initialAmount * qpow (1 + r) m
  let fvStream :=
    if r = 0 then monthlyContribution * m
    else monthlyContribution * ((qpow (1 + r) m - 1) / r)
  round2 (fvLump + fvStream)

/-- Whether an `Except` result is an error (a raised exception). -/
def raisesError {α : Type} : Except String α → Bool
  | .error _ => true
  | .ok _ => false

/-- `detail/types.py`, `CreditCalculationResult`: the per-term result record. -/
structure CreditCalculationResult where
  monthly_payment : ℚ
  total_cost : ℚ
  total_cost_adjusted : ℚ
  investment_balance : ℚ
  deriving Repr, DecidableEq

/-- The parameter dictionary consumed by the credit calculations: the fields
the code reads, each array-valued key represented by its first element (the
only element the code reads).  The optional keys are taken to be present,
as required by `calculate_credit_with_overpayment` and
`calculate_credit_with_investment` (a missing key would be a `KeyError`). -/
structure CreditParameters where
  creditAmount : ℚ
  creditRate : ℚ
  expectedInflation : ℚ
  acceptablePayment : ℚ
  investmentRate : ℚ
  deriving Repr, DecidableEq

/-- `credit/simple_credit.py`, `_calculate_monthly_payment`: annuity payment,
with the straight-line branch at zero rate. -/
def _calculate_monthly_payment (amount rate : ℚ) (months : ℕ) : ℚ :=
  if rate = 0 then amount / months
  else
    let rate_factor := (1 + rate) ^ months
    let numerator := rate * rate_factor
    let denominator := rate_factor - 1
    amount * (numerator / denominator)

/-- The loop of `_calculate_payoff_with_overpayment`, by recursion on the
remaining iteration budget `fuel = max_months − actual_months` (the loop
increments `actual_months` each pass, so `fuel = 0` is exactly the exit
condition `actual_months < max_months` failing). -/
def payoffGo (rate payment : ℚ) :
    ℕ → ℚ → ℕ → ℚ → ℕ × ℚ
  | 0, _, actual_months, total_paid => (actual_months, total_paid)
  | fuel + 1, remaining_balance, actual_months, total_paid =>
    if 1/100 < remaining_balance then
      let interest_payment := remaining_balance * rate
      let principal_payment := payment - interest_payment
      if principal_payment ≤ 0 then (actual_months, total_paid)
      else
        payoffGo rate payment fuel (remaining_balance - principal_payment)
          (actual_months + 1) (total_paid + payment)
    else (actual_months, total_paid)

/-- `credit/simple_credit.py`, `_calculate_payoff_with_overpayment`:
month-by-month payoff simulation; returns `(actual_months, total_paid)`. -/
def _calculate_payoff_with_overpayment
    (amount rate payment : ℚ) (max_months : ℕ) : ℕ × ℚ :=
  payoffGo rate payment max_months amount 0 0

/-- `credit/simple_credit.py`, `_apply_inflation_adjustment`; `inflation_rate`
is the annual rate as a decimal (the callers pass `percent / 100`). -/
def _apply_inflation_adjustment (cost inflation_rate : ℚ) (years : ℕ) : ℚ :=
  let inflation_factor := (1 + inflation_rate) ^ years
  cost / inflation_factor

/-- `credit/simple_credit.py`, `_calculate_investment_balance`: investment of
the freed-up payment over the months left after payoff.  `remaining_months`
is `ℤ` (a Python int difference); the guard returns 0 when it is ≤ 0. -/
def _calculate_investment_balance
    (monthly_payment investment_rate : ℚ) (remaining_months : ℤ) :
    Except String ℚ :=
  if remaining_months ≤ 0 then .ok 0
  else
    calculate_simple_investment 0 monthly_payment investment_rate
      ((remaining_months : ℚ) / 12)

/-- The swept term range `range(3, 31)`: the years 3..30 in ascending order. -/
def creditYears : List ℕ := List.range' 3 28

/-- The body of the `calculate_credit` loop for one year: the plain-model
record (investment balance fixed at 0). -/
def creditEntry (amount rate inflation_rate : ℚ) (years : ℕ) :
    CreditCalculationResult :=
  let months := years * 12
  let monthly_payment := _calculate_monthly_payment amount rate months
  let total_cost := monthly_payment * months
  let total_cost_adjusted :=
    _apply_inflation_adjustment total_cost inflation_rate years
  { monthly_payment := round2 monthly_payment
    total_cost := round2 total_cost
    total_cost_adjusted := round2 total_cost_adjusted
    investment_balance := 0 }

/-- `credit/simple_credit.py`, `calculate_credit`: the plain model, one record
per year 3..30 in insertion order. -/
def calculate_credit (p : CreditParameters) :
    List (ℕ × CreditCalculationResult) :=
  let amount := p.creditAmount
  let rate := p.creditRate / 100 / 12
  let inflation_rate := p.expectedInflation / 100
  creditYears.map fun years => (years, creditEntry amount rate inflation_rate years)

/-- A `for` loop that builds a list and propagates a raised exception:
the effectful map used by the two sweeps that can raise. -/
def mapE {α β : Type} (f : α → Except String β) : List α → Except String (List β)
  | [] => .ok []
  | a :: l => do
    let b ← f a
    let l2 ← mapE f l
    pure (b :: l2)

/-- The body of the `calculate_credit_with_overpayment` loop for one year. -/
def overpaymentEntry (amount rate inflation_rate acceptable_payment
    investment_rate : ℚ) (years : ℕ) : Except String CreditCalculationResult := do
  let months := years * 12
  let standard_payment := _calculate_monthly_payment amount rate months
  let (monthly_payment, total_cost, investment_balance) ←
    if acceptable_payment ≤ standard_payment then
      pure ((standard_payment, standard_payment * (months : ℚ), (0 : ℚ)))
    else do
      let monthly_payment := acceptable_payment
      let (actual_months, total_paid) :=
        _calculate_payoff_with_overpayment amount rate monthly_payment months
      let remaining_months : ℤ := (months : ℤ) - (actual_months : ℤ)
      let investment_balance ←
        _calculate_investment_balance monthly_payment investment_rate
          remaining_months
      pure ((monthly_payment, total_paid - investment_balance,
        investment_balance))
  let total_cost_adjusted :=
    _apply_inflation_adjustment total_cost inflation_rate years
  pure
    { monthly_payment := round2 monthly_payment
      total_cost := round2 total_cost
      total_cost_adjusted := round2 total_cost_adjusted
      investment_balance := round2 investment_balance }

/-- `credit/simple_credit.py`, `calculate_credit_with_overpayment`: the
overpayment model over the term range (its `standard_payment >=
acceptable_payment` test is `acceptable_payment ≤ standard_payment`). -/
def calculate_credit_with_overpayment (p : CreditParameters) :
    Except String (List (ℕ × CreditCalculationResult)) :=
  let amount := p.creditAmount
  let rate := p.creditRate / 100 / 12
  let inflation_rate := p.expectedInflation / 100
  let acceptable_payment := p.acceptablePayment
  let investment_rate := p.investmentRate
  mapE
    (fun years =>
      (overpaymentEntry amount rate inflation_rate acceptable_payment
          investment_rate years).map
        (fun r => (years, r)))
    creditYears

/-- The body of the `calculate_credit_with_investment` loop for one input
entry `(years, data)`. -/
def investmentEntry (acceptable_monthly_payment investment_rate
    inflation_rate : ℚ) (years : ℕ) (data : CreditCalculationResult) :
    Except String CreditCalculationResult := do
  let actual_monthly_payment :=
    max acceptable_monthly_payment data.monthly_payment
  let monthly_investment :=
    max 0 (acceptable_monthly_payment - data.monthly_payment)
  let investment_balance ←
    calculate_simple_investment 0 monthly_investment investment_rate (years : ℚ)
  let total_cost_with_investment := data.total_cost - investment_balance
  let inflation_factor := (1 + inflation_rate / 100) ^ years
  let total_cost_adjusted_with_investment :=
    total_cost_with_investment / inflation_factor
  pure
    { monthly_payment := actual_monthly_payment
      total_cost := total_cost_with_investment
      total_cost_adjusted := round2 total_cost_adjusted_with_investment
      investment_balance := round2 investment_balance }

/-- `credit/simple_credit.py` lines 165-213 and `credit/credit_with_investment.py`
(the two bodies are line-for-line the same computation),
`calculate_credit_with_investment`: invest the surplus of the acceptable
payment over each term's required payment for the full term. -/
def calculate_credit_with_investment
    (credit_results : List (ℕ × CreditCalculationResult))
    (p : CreditParameters) :
    Except String (List (ℕ × CreditCalculationResult)) :=
  let acceptable_monthly_payment := p.acceptablePayment
  let investment_rate := p.investmentRate
  let inflation_rate := p.expectedInflation
  mapE
    (fun e =>
      (investmentEntry acceptable_monthly_payment investment_rate
          inflation_rate e.1 e.2).map
        (fun r => (e.1, r)))
    credit_results

/-- A rational is stored at two-decimal (cent) precision: it equals its own
two-decimal rounding. -/
def is2dec (q : ℚ) : Bool := round2 q == q

/-- All four numeric fields of a result record are at two-decimal precision. -/
def allFields2dec (r : CreditCalculationResult) : Bool :=
  is2dec r.monthly_payment && is2dec r.total_cost &&
    is2dec r.total_cost_adjusted && is2dec r.investment_balance

/-- The fields other than `monthly_payment` of a result record are at
two-decimal precision. -/
def moneyFields2dec (r : CreditCalculationResult) : Bool :=
  is2dec r.total_cost && is2dec r.total_cost_adjusted &&
    is2dec r.investment_balance

/-- The validity condition on the parameter object, from the spec's
`LoanParameters` data model: non-negative money and rates (the inflation
rate alone may be negative). -/
def ValidParameters (p : CreditParameters) : Prop :=
  0 ≤ p.creditAmount ∧ 0 ≤ p.creditRate ∧ 0 ≤ p.acceptablePayment ∧
    0 ≤ p.investmentRate

/-! ## The heap model of `calculate_credit_with_investment`

Python result records are mutable dicts; whether `calculate_credit_with_investment`
mutates its argument is a heap property.  The model makes allocation
explicit: a heap of records, addressed by index; the input mapping holds
addresses; every loop iteration reads the input record through its address
and allocates a fresh record (`CreditCalculationResult(...)` in the source
constructs a new dict each iteration; nothing is ever written to an
existing cell). -/

/-- A heap of result records; the address of a record is its index. -/
structure RecordHeap where
  cells : List CreditCalculationResult
  deriving Repr, DecidableEq

/-- Read the record at an address. -/
def RecordHeap.read (h : RecordHeap) (a : ℕ) : Option CreditCalculationResult :=
  h.cells.get? a

/-- Allocate a fresh record, returning the grown heap and the new address. -/
def RecordHeap.alloc (h : RecordHeap) (r : CreditCalculationResult) :
    RecordHeap × ℕ :=
  (⟨h.cells ++ [r]⟩, h.cells.length)

/-- The loop of `calculate_credit_with_investment` over the heap: read the
input record, compute the fresh result record, allocate it, record its
address under the year. -/
def investmentSweepHeap (p : CreditParameters) :
    List (ℕ × ℕ) → RecordHeap → List (ℕ × ℕ) →
    Except String (RecordHeap × List (ℕ × ℕ))
  | [], h, acc => .ok (h, acc.reverse)
  | (years, addr) :: rest, h, acc => do
    let data ← match h.read addr with
      | some d => Except.ok d
      | none => Except.error "dangling record reference"
    let r ←
      investmentEntry p.acceptablePayment p.investmentRate p.expectedInflation
        years data
    let (h2, addr2) := h.alloc r
    investmentSweepHeap p rest h2 ((years, addr2) :: acc)

/-- `calculate_credit_with_investment` over the explicit heap: the input
mapping is a list of `(year, address)` pairs into the heap. -/
def calculate_credit_with_investment_heap (input : List (ℕ × ℕ))
    (p : CreditParameters) (h : RecordHeap) :
    Except String (RecordHeap × List (ℕ × ℕ)) :=
  investmentSweepHeap p input h []

/-! ## Rounding lemmas -/

lemma roundHalfEven_intCast (n : ℤ) : roundHalfEven (n : ℚ) = n := by
  unfold roundHalfEven
  norm_num [Int.floor_intCast]

lemma round2_int_div_100 (n : ℤ) : round2 ((n : ℚ) / 100) = (n : ℚ) / 100 := by
  unfold round2
  rw [div_mul_cancel₀ _ (by norm_num : (100 : ℚ) ≠ 0), roundHalfEven_intCast]

lemma round2_round2 (q : ℚ) : round2 (round2 q) = round2 q :=
  round2_int_div_100 _

lemma round2_zero : round2 0 = 0 := by
  simpa using round2_int_div_100 0

lemma round2_eq_self_iff (q : ℚ) :
    round2 q = q ↔ ∃ n : ℤ, q = (n : ℚ) / 100 := by
  constructor
  · intro h
    exact ⟨roundHalfEven (q * 100), h.symm⟩
  · rintro ⟨n, rfl⟩
    exact round2_int_div_100 n

lemma round2_sub {a b : ℚ} (ha : round2 a = a) (hb : round2 b = b) :
    round2 (a - b) = a - b := by
  obtain ⟨m, rfl⟩ := (round2_eq_self_iff a).1 ha
  obtain ⟨n, rfl⟩ := (round2_eq_self_iff b).1 hb
  rw [div_sub_div_same, ← Int.cast_sub]
  exact round2_int_div_100 _

lemma round2_max {a b : ℚ} (ha : round2 a = a) (hb : round2 b = b) :
    round2 (max a b) = max a b := by
  rcases max_choice a b with h | h <;> rw [h] <;> assumption

lemma is2dec_round2 (q : ℚ) : is2dec (round2 q) = true :=
  beq_iff_eq.2 (round2_round2 q)

/-! ## Claim C1: the investment balance formula -/

/-- C1: for every initialAmount ≥ 0, monthlyContribution ≥ 0,
annualRatePercent ≥ 0 and years > 0, `calculate_simple_investment` returns
`round(initialAmount*(1+r)^m + S, 2)` with `r = annualRatePercent/100/12`,
`m = years*12`, and `S = monthlyContribution*m` when `r = 0`, otherwise
`S = monthlyContribution*((1+r)^m - 1)/r` (the spec-side formula is
`computeBalanceSpec`). -/
theorem calculate_simple_investment_matches_spec
    (initialAmount monthlyContribution annualRatePercent years : ℚ)
    (ha : 0 ≤ initialAmount) (hc : 0 ≤ monthlyContribution)
    (hr : 0 ≤ annualRatePercent) (hy : 0 < years) :
    calculate_simple_investment initialAmount monthlyContribution
        annualRatePercent years =
      .ok (computeBalanceSpec initialAmount monthlyContribution
        annualRatePercent years) := by
  unfold calculate_simple_investment computeBalanceSpec
  rw [if_neg (not_lt.2 ha), if_neg (not_lt.2 hc), if_neg (not_lt.2 hr),
    if_neg (not_le.2 hy)]

/-- Witness for C1 at `(1, 2, 0, 1)`. -/
theorem calculate_simple_investment_matches_spec_witness :
    calculate_simple_investment 1 2 0 1 = .ok (computeBalanceSpec 1 2 0 1) :=
  calculate_simple_investment_matches_spec 1 2 0 1 (by norm_num) (by norm_num)
    (by norm_num) (by norm_num)

/-! ## Claim C4: the precondition guards -/

/-- C4: `calculate_simple_investment` fails with an invalid-argument error
(`ValueError` in the source, `Except.error` here) if and only if
initialAmount < 0 or monthlyContribution < 0 or annualRatePercent < 0 or
years ≤ 0; on every input satisfying the preconditions it returns normally;
and in particular `computeBalance(-1, 0, 5, 1)` fails. -/
theorem calculate_simple_investment_error_iff :
    (∀ a c r y : ℚ,
      raisesError (calculate_simple_investment a c r y) = true ↔
        (a < 0 ∨ c < 0 ∨ r < 0 ∨ y ≤ 0)) ∧
      raisesError (calculate_simple_investment (-1) 0 5 1) = true := by
  constructor
  · intro a c r y
    unfold calculate_simple_investment
    split_ifs with h1 h2 h3 h4
    · simp [raisesError]; tauto
    · simp [raisesError]; tauto
    · simp [raisesError]; tauto
    · simp [raisesError]; tauto
    · simp [raisesError]
      exact ⟨not_lt.1 h1, not_lt.1 h2, not_lt.1 h3, not_le.1 h4⟩
  · decide

/-! ## Claim C5: the payoff loop is bounded -/

lemma payoffGo_fst_le (rate payment : ℚ) (fuel : ℕ) :
    ∀ bal am tp, (payoffGo rate payment fuel bal am tp).1 ≤ am + fuel := by
  induction fuel with
  | zero => intro bal am tp; simp [payoffGo]
  | succ n ih =>
    intro bal am tp
    simp only [payoffGo]
    split_ifs with h1 h2
    · simp
    · exact le_trans (ih _ _ _) (by omega)
    · simp

/-- C5: the overpayment payoff simulation terminates (it is a total
function here, defined by recursion on the remaining iteration budget) and
the month count it returns never exceeds `max_months`, the nominal term's
month count. -/
theorem payoff_simulation_months_bounded
    (amount rate payment : ℚ) (max_months : ℕ) :
    (_calculate_payoff_with_overpayment amount rate payment max_months).1 ≤
      max_months := by
  unfold _calculate_payoff_with_overpayment
  simpa using payoffGo_fst_le rate payment max_months amount 0 0

/-! ## Claim C8: the standard payment strictly decreases with the term -/

/-- C8: for fixed principal > 0 and fixed monthly rate > 0, the standard
annuity payment of `_calculate_monthly_payment` is strictly decreasing in
the number of months: `m1 < m2` (with `m1 ≥ 1`) gives a strictly smaller
payment at `m2`; in particular it strictly decreases from each year 3..29
to the next (`m1 = y*12`, `m2 = (y+1)*12`). -/
theorem standard_payment_strictly_decreasing_in_term
    (amount rate : ℚ) (m1 m2 : ℕ)
    (hA : 0 < amount) (hr : 0 < rate) (h1 : 1 ≤ m1) (h12 : m1 < m2) :
    _calculate_monthly_payment amount rate m2 <
      _calculate_monthly_payment amount rate m1 := by
  unfold _calculate_monthly_payment
  rw [if_neg (ne_of_gt hr), if_neg (ne_of_gt hr)]
  have hs1 : 1 < 1 + rate := by linarith
  have h2 : 1 ≤ m2 := le_trans h1 (le_of_lt h12)
  have hp1 : 1 < (1 + rate) ^ m1 := one_lt_pow hs1 (by omega)
  have hp2 : 1 < (1 + rate) ^ m2 := one_lt_pow hs1 (by omega)
  have d1 : 0 < (1 + rate) ^ m1 - 1 := by linarith
  have d2 : 0 < (1 + rate) ^ m2 - 1 := by linarith
  have hlt : (1 + rate) ^ m1 < (1 + rate) ^ m2 := pow_lt_pow_right hs1 h12
  apply mul_lt_mul_of_pos_left _ hA
  rw [div_lt_div_iff d2 d1]
  nlinarith [hlt, hr]

/-- Witness for C8 at `amount = 1, rate = 1, m1 = 12, m2 = 24`. -/
theorem standard_payment_strictly_decreasing_in_term_witness :
    _calculate_monthly_payment 1 1 24 < _calculate_monthly_payment 1 1 12 :=
  standard_payment_strictly_decreasing_in_term 1 1 12 24 (by norm_num)
    (by norm_num) (by norm_num) (by norm_num)

/-! ## Claim C9: the inflation adjustment strictly decreases with the rate -/

/-- C9: for nominal cost > 0 and years ≥ 1, the inflation adjustment
(`_apply_inflation_adjustment cost (pct/100) years`, i.e.
`cost / (1 + pct/100)^years`) is strictly decreasing in the inflation
percentage for percentages above −100; consequently a negative (deflationary)
percentage yields an adjusted cost strictly above the nominal cost, and a
zero rate leaves the cost unchanged. -/
theorem inflation_adjustment_strictly_decreasing_in_rate
    (cost : ℚ) (years : ℕ) (p1 p2 : ℚ)
    (hc : 0 < cost) (hy : 1 ≤ years) (h1 : -100 < p1) (h12 : p1 < p2) :
    _apply_inflation_adjustment cost (p2 / 100) years <
        _apply_inflation_adjustment cost (p1 / 100) years
      ∧ (p1 < 0 →
          cost < _apply_inflation_adjustment cost (p1 / 100) years)
      ∧ _apply_inflation_adjustment cost 0 years = cost := by
  unfold _apply_inflation_adjustment
  have hb1 : (0 : ℚ) < 1 + p1 / 100 := by linarith
  have hb2 : (0 : ℚ) < 1 + p2 / 100 := by linarith
  have hbpow1 : (0 : ℚ) < (1 + p1 / 100) ^ years := pow_pos hb1 years
  have hbpow2 : (0 : ℚ) < (1 + p2 / 100) ^ years := pow_pos hb2 years
  refine ⟨?_, ?_, ?_⟩
  · have hblt : (1 + p1 / 100) ^ years < (1 + p2 / 100) ^ years :=
      pow_lt_pow_left (by linarith) (le_of_lt hb1) (by omega)
    rw [div_lt_div_iff hbpow2 hbpow1]
    exact mul_lt_mul_of_pos_left hblt hc
  · intro hneg
    have hlt1 : (1 + p1 / 100) ^ years < 1 :=
      pow_lt_one (le_of_lt hb1) (by linarith) (by omega)
    rw [lt_div_iff hbpow1]
    nlinarith
  · norm_num

/-- Witness for C9 at `cost = 1, years = 1, p1 = -50, p2 = 0`. -/
theorem inflation_adjustment_strictly_decreasing_in_rate_witness :
    _apply_inflation_adjustment 1 (0 / 100) 1 <
        _apply_inflation_adjustment 1 ((-50) / 100) 1
      ∧ ((-50 : ℚ) < 0 →
          (1 : ℚ) < _apply_inflation_adjustment 1 ((-50) / 100) 1)
      ∧ _apply_inflation_adjustment 1 0 1 = 1 :=
  inflation_adjustment_strictly_decreasing_in_rate 1 1 (-50) 0 (by norm_num)
    (by norm_num) (by norm_num) (by norm_num)

/-! ## Claim C2: the zero-rate plain model -/

lemma list_lookup_map_self {β : Type} (g : ℕ → β) :
    ∀ (l : List ℕ) (y : ℕ), y ∈ l →
      (l.map fun a => (a, g a)).lookup y = some (g y) := by
  intro l
  induction l with
  | nil => intro y hy; cases hy
  | cons a l ih =>
    intro y hy
    by_cases h : y = a
    · subst h
      simp [List.lookup]
    · have hne : (y == a) = false := beq_eq_false_iff_ne.2 h
      have hmem : y ∈ l := (List.mem_cons.1 hy).resolve_left h
      simp [List.lookup, hne, ih y hmem]

lemma lookup_calculate_credit (p : CreditParameters) (y : ℕ)
    (hy : y ∈ creditYears) :
    (calculate_credit p).lookup y =
      some (creditEntry p.creditAmount (p.creditRate / 100 / 12)
        (p.expectedInflation / 100) y) := by
  unfold calculate_credit
  exact list_lookup_map_self _ creditYears y hy

/-- Counterexample to C2 as stated: with principal 100000, zero rate, at
year 7 the stored monthly payment is 1190.48 (the rounded value), which is
not `100000 / 84` exactly. -/
theorem zero_rate_plain_model_straight_line_cex :
    ((calculate_credit ⟨100000, 0, 0, 0, 0⟩).lookup 7).map
        (fun r => r.monthly_payment) = some (29762 / 25)
      ∧ (29762 / 25 : ℚ) ≠ 100000 / 84 := by
  constructor
  · rw [lookup_calculate_credit ⟨100000, 0, 0, 0, 0⟩ 7 (by decide)]
    norm_num [creditEntry, _calculate_monthly_payment, round2, roundHalfEven]
  · norm_num

/-- C2 as amended: for zero credit rate and any year of the sweep, the
plain model's stored `monthly_payment` is `round2 (principal / (y*12))` and
its stored `total_cost` is `round2 principal`; before the final two-decimal
rounding the payment is exactly `principal / (y*12)` and the total cost is
exactly the principal. -/
theorem zero_rate_plain_model_straight_line
    (p : CreditParameters) (hr : p.creditRate = 0) (hA : 0 < p.creditAmount)
    (y : ℕ) (hy : y ∈ creditYears) :
    ((calculate_credit p).lookup y).map
        (fun r => (r.monthly_payment, r.total_cost)) =
      some (round2 (p.creditAmount / ((y * 12 : ℕ) : ℚ)), round2 p.creditAmount)
      ∧ _calculate_monthly_payment p.creditAmount (p.creditRate / 100 / 12)
          (y * 12) * ((y * 12 : ℕ) : ℚ) = p.creditAmount := by
  have hy3 : 3 ≤ y := by
    have := List.mem_range'_1.1 hy
    omega
  have hm : ((y * 12 : ℕ) : ℚ) ≠ 0 := by
    have : (0 : ℕ) < y * 12 := by omega
    exact_mod_cast Nat.pos_iff_ne_zero.1 this
  have hrate : p.creditRate / 100 / 12 = 0 := by rw [hr]; norm_num
  have hpay : _calculate_monthly_payment p.creditAmount
      (p.creditRate / 100 / 12) (y * 12) =
      p.creditAmount / ((y * 12 : ℕ) : ℚ) := by
    rw [hrate]
    unfold _calculate_monthly_payment
    rw [if_pos rfl]
  constructor
  · rw [lookup_calculate_credit p y hy]
    simp only [creditEntry]
    rw [hpay, div_mul_cancel₀ _ hm]
    rfl
  · rw [hpay, div_mul_cancel₀ _ hm]

/-- Witness for the amended C2 at principal 100000, zero rate, year 7. -/
theorem zero_rate_plain_model_straight_line_witness :
    ((calculate_credit ⟨100000, 0, 0, 0, 0⟩).lookup 7).map
        (fun r => (r.monthly_payment, r.total_cost)) =
      some (round2 ((100000 : ℚ) / ((7 * 12 : ℕ) : ℚ)), round2 (100000 : ℚ))
      ∧ _calculate_monthly_payment 100000 ((0 : ℚ) / 100 / 12) (7 * 12) *
          ((7 * 12 : ℕ) : ℚ) = 100000 :=
  zero_rate_plain_model_straight_line ⟨100000, 0, 0, 0, 0⟩ rfl (by norm_num) 7
    (by decide)

/-! ## Claim C3: overpayment has no effect when the budget is at most the
standard payment -/

/-- C3: for every term of the sweep at which the acceptable monthly payment
is ≤ the standard required payment, the overpayment model's record for that
term is exactly the standard schedule's record: monthly payment equal to the
standard payment, total cost equal to the standard payment times the term's
months, and investment balance 0 (`calculate_credit_with_overpayment` maps
`overpaymentEntry` over the sweep; `calculate_credit` maps `creditEntry`). -/
theorem overpayment_no_effect_when_acceptable_le_standard
    (p : CreditParameters) (y : ℕ) (hy : y ∈ creditYears)
    (h : p.acceptablePayment ≤
      _calculate_monthly_payment p.creditAmount (p.creditRate / 100 / 12)
        (y * 12)) :
    overpaymentEntry p.creditAmount (p.creditRate / 100 / 12)
        (p.expectedInflation / 100) p.acceptablePayment p.investmentRate y =
      .ok (creditEntry p.creditAmount (p.creditRate / 100 / 12)
        (p.expectedInflation / 100) y) := by
  simp only [overpaymentEntry, creditEntry, if_pos h, bind, Except.bind, pure,
    Except.pure, round2_zero]

/-- Witness for C3: zero acceptable payment at year 3 of a zero-rate loan. -/
theorem overpayment_no_effect_when_acceptable_le_standard_witness :
    overpaymentEntry 100000 ((0 : ℚ) / 100 / 12) ((0 : ℚ) / 100) 0 0 3 =
      .ok (creditEntry 100000 ((0 : ℚ) / 100 / 12) ((0 : ℚ) / 100) 3) :=
  overpayment_no_effect_when_acceptable_le_standard ⟨100000, 0, 0, 0, 0⟩ 3
    (by decide) (by norm_num [_calculate_monthly_payment])

/-! ## Machinery for the two exception-threading sweeps -/

lemma exceptBind_ok {α β : Type} (a : α) (k : α → Except String β) :
    (Except.ok a >>= k) = k a := rfl

lemma exceptBind_error {α β : Type} (e : String) (k : α → Except String β) :
    ((Except.error e : Except String α) >>= k) = .error e := rfl

lemma exceptPure_eq {α : Type} (a : α) : (pure a : Except String α) = .ok a := rfl

lemma exceptMap_ok {α β : Type} (f : α → β) (x : α) :
    Except.map f (Except.ok x : Except String α) = .ok (f x) := rfl

lemma mapE_cons_ok {α β : Type} (f : α → Except String β) (a : α) (l : List α)
    (b : β) (out : List β) (hb : f a = .ok b) (hl : mapE f l = .ok out) :
    mapE f (a :: l) = .ok (b :: out) := by
  simp only [mapE, hb, exceptBind_ok, hl, exceptPure_eq]

lemma mapE_ok_strong {α β : Type} (key1 : α → ℕ) (key2 : β → ℕ) (Q : β → Bool)
    (f : α → Except String β) :
    ∀ (l : List α),
      (∀ a ∈ l, ∃ b, f a = .ok b ∧ key2 b = key1 a ∧ Q b = true) →
      ∃ out, mapE f l = .ok out ∧ out.map key2 = l.map key1 ∧
        out.all Q = true := by
  intro l
  induction l with
  | nil => exact fun _ => ⟨[], rfl, rfl, rfl⟩
  | cons a l ih =>
    intro h
    obtain ⟨b, hb, hk, hQ⟩ := h a (List.mem_cons_self a l)
    obtain ⟨out, hout, hkeys, hall⟩ :=
      ih fun x hx => h x (List.mem_cons_of_mem a hx)
    refine ⟨b :: out, mapE_cons_ok f a l b out hb hout, ?_, ?_⟩
    · simp [hk, hkeys]
    · simp [hQ, hall]

lemma mapE_mem {α β : Type} (f : α → Except String β) :
    ∀ (l : List α) (out : List β), mapE f l = .ok out →
      ∀ a ∈ l, ∀ b, f a = .ok b → b ∈ out := by
  intro l
  induction l with
  | nil => intro out _ a ha; cases ha
  | cons a2 l2 ih =>
    intro out h a ha b hb
    cases hfa : f a2 with
    | error e => simp only [mapE, hfa, exceptBind_error] at h; cases h
    | ok b2 =>
      cases hml : mapE f l2 with
      | error e =>
        simp only [mapE, hfa, exceptBind_ok, hml, exceptBind_error] at h
        cases h
      | ok out2 =>
        simp only [mapE, hfa, exceptBind_ok, hml, exceptPure_eq] at h
        injection h with h
        subst h
        rcases List.mem_cons.1 ha with h | h
        · subst h
          rw [hfa] at hb
          injection hb with hb
          subst hb
          exact List.mem_cons_self _ _
        · exact List.mem_cons_of_mem _ (ih out2 hml a h b hb)

lemma calculate_simple_investment_ok (a c r y : ℚ)
    (ha : 0 ≤ a) (hc : 0 ≤ c) (hr : 0 ≤ r) (hy : 0 < y) :
    ∃ v, calculate_simple_investment a c r y = .ok v ∧ round2 v = v := by
  unfold calculate_simple_investment
  rw [if_neg (not_lt.2 ha), if_neg (not_lt.2 hc), if_neg (not_lt.2 hr),
    if_neg (not_le.2 hy)]
  exact ⟨_, rfl, round2_round2 _⟩

lemma std_payment_nonneg (amount rate : ℚ) (months : ℕ)
    (hA : 0 ≤ amount) (hr : 0 ≤ rate) :
    0 ≤ _calculate_monthly_payment amount rate months := by
  unfold _calculate_monthly_payment
  split_ifs with h
  · exact div_nonneg hA (by positivity)
  · have hr0 : 0 < rate := lt_of_le_of_ne hr (Ne.symm h)
    have h1 : (1 : ℚ) ≤ (1 + rate) ^ months := one_le_pow₀ (by linarith)
    have hn : 0 ≤ rate * (1 + rate) ^ months := by positivity
    have hd : 0 ≤ (1 + rate) ^ months - 1 := by linarith
    exact mul_nonneg hA (div_nonneg hn hd)

lemma overpaymentEntry_ok
    (amount rate inflation_rate acceptable investment_rate : ℚ) (years : ℕ)
    (hacc : 0 ≤ acceptable) (hinv : 0 ≤ investment_rate) :
    ∃ r, overpaymentEntry amount rate inflation_rate acceptable
        investment_rate years = .ok r ∧ allFields2dec r = true := by
  simp only [overpaymentEntry]
  by_cases h : acceptable ≤ _calculate_monthly_payment amount rate (years * 12)
  · rw [if_pos h]
    exact ⟨_, rfl, by simp [allFields2dec, is2dec_round2]⟩
  · rw [if_neg h]
    rcases hpr : _calculate_payoff_with_overpayment amount rate acceptable
      (years * 12) with ⟨am, tp⟩
    dsimp only
    by_cases hrm : ((years * 12 : ℕ) : ℤ) - (am : ℤ) ≤ 0
    · rw [_calculate_investment_balance, if_pos hrm]
      exact ⟨_, rfl, by simp [allFields2dec, is2dec_round2]⟩
    · rw [_calculate_investment_balance, if_neg hrm]
      have hpos : (0 : ℚ) <
          ((((years * 12 : ℕ) : ℤ) - (am : ℤ) : ℤ) : ℚ) / 12 := by
        have : (0 : ℤ) < ((years * 12 : ℕ) : ℤ) - (am : ℤ) := by omega
        have : (0 : ℚ) < ((((years * 12 : ℕ) : ℤ) - (am : ℤ) : ℤ) : ℚ) := by
          exact_mod_cast this
        positivity
      obtain ⟨v, hv, -⟩ := calculate_simple_investment_ok 0 acceptable
        investment_rate _ le_rfl hacc hinv hpos
      rw [hv, exceptBind_ok]
      exact ⟨_, rfl, by simp [allFields2dec, is2dec_round2]⟩

lemma investmentEntry_ok (acceptable investment_rate inflation_rate : ℚ)
    (years : ℕ) (data : CreditCalculationResult)
    (hinv : 0 ≤ investment_rate) (hy : 0 < years) :
    ∃ v, round2 v = v ∧
      investmentEntry acceptable investment_rate inflation_rate years data =
        .ok
          { monthly_payment := max acceptable data.monthly_payment
            total_cost := data.total_cost - v
            total_cost_adjusted := round2 ((data.total_cost - v) /
              (1 + inflation_rate / 100) ^ years)
            investment_balance := round2 v } := by
  have hy0 : (0 : ℚ) < (years : ℚ) := by exact_mod_cast hy
  obtain ⟨v, hv, h2v⟩ := calculate_simple_investment_ok 0
    (max 0 (acceptable - data.monthly_payment)) investment_rate (years : ℚ)
    le_rfl (le_max_left _ _) hinv hy0
  refine ⟨v, h2v, ?_⟩
  simp only [investmentEntry, hv, exceptBind_ok, exceptPure_eq]

lemma list_map_fst_pair {β : Type} (g : ℕ → β) :
    ∀ l : List ℕ, (l.map fun y => (y, g y)).map Prod.fst = l := by
  intro l
  induction l with
  | nil => rfl
  | cons a l ih => simp only [List.map_cons, ih]

lemma calculate_credit_keys (p : CreditParameters) :
    (calculate_credit p).map Prod.fst = creditYears := by
  exact list_map_fst_pair _ creditYears

lemma creditYears_pos {y : ℕ} (hy : y ∈ creditYears) : 0 < y := by
  have := List.mem_range'_1.1 hy
  omega

/-! ## Claim C6: one record per year 3..30 in each of the three models -/

/-- C6: for every valid parameter object, each of the three models — plain
(`calculate_credit`), overpayment (`calculate_credit_with_overpayment`), and
investment-of-surplus (`calculate_credit_with_investment` applied to the
plain result) — produces a mapping whose key sequence is exactly the years
3..30 in ascending insertion order (`creditYears`), one record per year; and
every plain-model record has `investment_balance = 0`. -/
theorem three_models_key_range_invariant (p : CreditParameters)
    (hv : ValidParameters p) :
    (calculate_credit p).map Prod.fst = creditYears
      ∧ ((calculate_credit p).all fun e => e.2.investment_balance == 0) = true
      ∧ (calculate_credit_with_overpayment p).map (List.map Prod.fst) =
          .ok creditYears
      ∧ (calculate_credit_with_investment (calculate_credit p) p).map
          (List.map Prod.fst) = .ok creditYears := by
  obtain ⟨hA, hr, hacc, hinv⟩ := hv
  refine ⟨calculate_credit_keys p, ?_, ?_, ?_⟩
  · simp [calculate_credit, List.all_eq_true, creditEntry]
  · have h : ∀ y ∈ creditYears, ∃ b,
        ((overpaymentEntry p.creditAmount (p.creditRate / 100 / 12)
            (p.expectedInflation / 100) p.acceptablePayment p.investmentRate
            y).map (fun r => (y, r))) = .ok b ∧ b.1 = y ∧
          (fun _ => true) b = true := by
      intro y hy
      obtain ⟨r, hre, -⟩ := overpaymentEntry_ok p.creditAmount
        (p.creditRate / 100 / 12) (p.expectedInflation / 100)
        p.acceptablePayment p.investmentRate y hacc hinv
      exact ⟨(y, r), by rw [hre]; rfl, rfl, rfl⟩
    obtain ⟨out, hout, hkeys, -⟩ :=
      mapE_ok_strong id Prod.fst (fun _ => true) _ creditYears h
    simp only [calculate_credit_with_overpayment]
    rw [hout]
    rw [exceptMap_ok, hkeys, List.map_id]
  · have h : ∀ e ∈ calculate_credit p, ∃ b,
        ((investmentEntry p.acceptablePayment p.investmentRate
            p.expectedInflation e.1 e.2).map (fun r => (e.1, r))) = .ok b ∧
          b.1 = e.1 ∧ (fun _ => true) b = true := by
      intro e he
      have hy : 0 < e.1 := by
        have hmem : e.1 ∈ (calculate_credit p).map Prod.fst :=
          List.mem_map_of_mem _ he
        rw [calculate_credit_keys] at hmem
        exact creditYears_pos hmem
      obtain ⟨v, -, hE⟩ := investmentEntry_ok p.acceptablePayment
        p.investmentRate p.expectedInflation e.1 e.2 hinv hy
      exact ⟨(e.1,
        { monthly_payment := max p.acceptablePayment e.2.monthly_payment
          total_cost := e.2.total_cost - v
          total_cost_adjusted := round2 ((e.2.total_cost - v) /
            (1 + p.expectedInflation / 100) ^ e.1)
          investment_balance := round2 v }),
        by rw [hE, exceptMap_ok], rfl, rfl⟩
    obtain ⟨out, hout, hkeys, -⟩ :=
      mapE_ok_strong Prod.fst Prod.fst (fun _ => true) _ (calculate_credit p) h
    simp only [calculate_credit_with_investment]
    rw [hout]
    rw [exceptMap_ok, hkeys, calculate_credit_keys]

/-- Witness for C6 at a concrete valid parameter object. -/
theorem three_models_key_range_invariant_witness :
    (calculate_credit ⟨100000, 0, 0, 0, 0⟩).map Prod.fst = creditYears
      ∧ ((calculate_credit ⟨100000, 0, 0, 0, 0⟩).all
          fun e => e.2.investment_balance == 0) = true
      ∧ (calculate_credit_with_overpayment ⟨100000, 0, 0, 0, 0⟩).map
          (List.map Prod.fst) = .ok creditYears
      ∧ (calculate_credit_with_investment
          (calculate_credit ⟨100000, 0, 0, 0, 0⟩) ⟨100000, 0, 0, 0, 0⟩).map
          (List.map Prod.fst) = .ok creditYears :=
  three_models_key_range_invariant ⟨100000, 0, 0, 0, 0⟩
    ⟨by norm_num, by norm_num, by norm_num, by norm_num⟩

/-! ## Claim C7: two-decimal precision of the stored fields -/

lemma creditEntry_2dec (amount rate inflation_rate : ℚ) (y : ℕ) :
    allFields2dec (creditEntry amount rate inflation_rate y) = true := by
  simp [creditEntry, allFields2dec, is2dec, round2_round2, round2_zero]

lemma investmentEntry_fields_2dec (p : CreditParameters)
    (hinv : 0 ≤ p.investmentRate) (e : ℕ × CreditCalculationResult)
    (he : e ∈ calculate_credit p) :
    ∃ b, ((investmentEntry p.acceptablePayment p.investmentRate
        p.expectedInflation e.1 e.2).map (fun r => (e.1, r))) = .ok b ∧
      b.1 = e.1 ∧ moneyFields2dec b.2 = true ∧
      (round2 p.acceptablePayment = p.acceptablePayment →
        allFields2dec b.2 = true) := by
  simp only [calculate_credit, List.mem_map] at he
  obtain ⟨y, hy2, rfl⟩ := he
  obtain ⟨v, h2v, hE⟩ := investmentEntry_ok p.acceptablePayment
    p.investmentRate p.expectedInflation y
    (creditEntry p.creditAmount (p.creditRate / 100 / 12)
      (p.expectedInflation / 100) y) hinv (creditYears_pos hy2)
  have hmp : round2 (creditEntry p.creditAmount (p.creditRate / 100 / 12)
      (p.expectedInflation / 100) y).monthly_payment =
      (creditEntry p.creditAmount (p.creditRate / 100 / 12)
        (p.expectedInflation / 100) y).monthly_payment := by
    simp [creditEntry, round2_round2]
  have htc : round2 (creditEntry p.creditAmount (p.creditRate / 100 / 12)
      (p.expectedInflation / 100) y).total_cost =
      (creditEntry p.creditAmount (p.creditRate / 100 / 12)
        (p.expectedInflation / 100) y).total_cost := by
    simp [creditEntry, round2_round2]
  refine ⟨(y,
    { monthly_payment := max p.acceptablePayment
        (creditEntry p.creditAmount (p.creditRate / 100 / 12)
          (p.expectedInflation / 100) y).monthly_payment
      total_cost := (creditEntry p.creditAmount (p.creditRate / 100 / 12)
          (p.expectedInflation / 100) y).total_cost - v
      total_cost_adjusted := round2 (((creditEntry p.creditAmount
          (p.creditRate / 100 / 12) (p.expectedInflation / 100)
          y).total_cost - v) / (1 + p.expectedInflation / 100) ^ y)
      investment_balance := round2 v }),
    by rw [hE, exceptMap_ok], rfl, ?_, ?_⟩
  · simp [moneyFields2dec, is2dec, round2_sub htc h2v, round2_round2]
  · intro ha2
    simp [allFields2dec, is2dec, round2_max ha2 hmp, round2_sub htc h2v,
      round2_round2]

/-- C7 as amended: for every valid parameter object, every numeric field of
every record of the plain and overpayment modes equals its own two-decimal
rounding, and so do the investment-of-surplus mode's `total_cost`,
`total_cost_adjusted` and `investment_balance` fields; that mode stores
`monthly_payment = max(acceptablePayment, plain payment)` unrounded, so all
four of its fields are two-decimal whenever `acceptablePayment` is itself a
cent value.  (As stated the claim fails only on that unrounded
`monthly_payment` field.) -/
theorem result_fields_two_decimal_amended (p : CreditParameters)
    (hv : ValidParameters p) :
    ((calculate_credit p).all fun e => allFields2dec e.2) = true
      ∧ (calculate_credit_with_overpayment p).map
          (fun l => l.all fun e => allFields2dec e.2) = .ok true
      ∧ (calculate_credit_with_investment (calculate_credit p) p).map
          (fun l => l.all fun e => moneyFields2dec e.2) = .ok true
      ∧ (round2 p.acceptablePayment = p.acceptablePayment →
          (calculate_credit_with_investment (calculate_credit p) p).map
            (fun l => l.all fun e => allFields2dec e.2) = .ok true) := by
  obtain ⟨hA, hr, hacc, hinv⟩ := hv
  refine ⟨?_, ?_, ?_, ?_⟩
  · apply List.all_eq_true.2
    intro e he
    simp only [calculate_credit, List.mem_map] at he
    obtain ⟨y, -, rfl⟩ := he
    exact creditEntry_2dec _ _ _ y
  · have h : ∀ y ∈ creditYears, ∃ b,
        ((overpaymentEntry p.creditAmount (p.creditRate / 100 / 12)
            (p.expectedInflation / 100) p.acceptablePayment p.investmentRate
            y).map (fun r => (y, r))) = .ok b ∧ b.1 = y ∧
          (fun b => allFields2dec b.2) b = true := by
      intro y hy
      obtain ⟨r, hre, h2⟩ := overpaymentEntry_ok p.creditAmount
        (p.creditRate / 100 / 12) (p.expectedInflation / 100)
        p.acceptablePayment p.investmentRate y hacc hinv
      exact ⟨(y, r), by rw [hre, exceptMap_ok], rfl, h2⟩
    obtain ⟨out, hout, -, hall⟩ :=
      mapE_ok_strong id Prod.fst _ _ creditYears h
    simp only [calculate_credit_with_overpayment]
    rw [hout, exceptMap_ok, hall]
  · have h : ∀ e ∈ calculate_credit p, ∃ b,
        ((investmentEntry p.acceptablePayment p.investmentRate
            p.expectedInflation e.1 e.2).map (fun r => (e.1, r))) = .ok b ∧
          b.1 = e.1 ∧ (fun b => moneyFields2dec b.2) b = true := by
      intro e he
      obtain ⟨b, hb, hk, hm, -⟩ := investmentEntry_fields_2dec p hinv e he
      exact ⟨b, hb, hk, hm⟩
    obtain ⟨out, hout, -, hall⟩ :=
      mapE_ok_strong Prod.fst Prod.fst _ _ (calculate_credit p) h
    simp only [calculate_credit_with_investment]
    rw [hout, exceptMap_ok, hall]
  · intro ha2
    have h : ∀ e ∈ calculate_credit p, ∃ b,
        ((investmentEntry p.acceptablePayment p.investmentRate
            p.expectedInflation e.1 e.2).map (fun r => (e.1, r))) = .ok b ∧
          b.1 = e.1 ∧ (fun b => allFields2dec b.2) b = true := by
      intro e he
      obtain ⟨b, hb, hk, -, hfull⟩ := investmentEntry_fields_2dec p hinv e he
      exact ⟨b, hb, hk, hfull ha2⟩
    obtain ⟨out, hout, -, hall⟩ :=
      mapE_ok_strong Prod.fst Prod.fst _ _ (calculate_credit p) h
    simp only [calculate_credit_with_investment]
    rw [hout, exceptMap_ok, hall]

/-- Witness for the amended C7 at a concrete valid parameter object, whose
acceptable payment (0) also satisfies the cent-value condition of the last
conjunct. -/
theorem result_fields_two_decimal_amended_witness :
    ((calculate_credit ⟨100000, 0, 0, 0, 0⟩).all
        fun e => allFields2dec e.2) = true
      ∧ (calculate_credit_with_overpayment ⟨100000, 0, 0, 0, 0⟩).map
          (fun l => l.all fun e => allFields2dec e.2) = .ok true
      ∧ (calculate_credit_with_investment
          (calculate_credit ⟨100000, 0, 0, 0, 0⟩) ⟨100000, 0, 0, 0, 0⟩).map
          (fun l => l.all fun e => moneyFields2dec e.2) = .ok true
      ∧ (round2 (0 : ℚ) = (0 : ℚ) →
          (calculate_credit_with_investment
            (calculate_credit ⟨100000, 0, 0, 0, 0⟩) ⟨100000, 0, 0, 0, 0⟩).map
            (fun l => l.all fun e => allFields2dec e.2) = .ok true) :=
  result_fields_two_decimal_amended ⟨100000, 0, 0, 0, 0⟩
    ⟨by norm_num, by norm_num, by norm_num, by norm_num⟩

/-- The concrete parameter object refuting C7 as stated: an acceptable
monthly payment of 1000.005 (not a cent value) on a 100000 zero-rate loan. -/
def cexParameters : CreditParameters := ⟨100000, 0, 0, 1000.005, 0⟩

/-- Counterexample to C7 as stated: with `cexParameters`, the
investment-of-surplus mode's result mapping contains a record (year 9) whose
`monthly_payment` field, 1000.005, is not equal to its own two-decimal
rounding, so not every numeric field of every record of the three modes is
rounded to two decimals. -/
theorem result_fields_two_decimal_cex :
    (calculate_credit_with_investment (calculate_credit cexParameters)
        cexParameters).map (fun l => l.all fun e => allFields2dec e.2) =
      .ok false := by
  have h : ∀ e ∈ calculate_credit cexParameters, ∃ b,
      ((investmentEntry cexParameters.acceptablePayment
          cexParameters.investmentRate cexParameters.expectedInflation e.1
          e.2).map (fun r => (e.1, r))) = .ok b ∧ b.1 = e.1 ∧
        (fun _ => true) b = true := by
    intro e he
    have hy : 0 < e.1 := by
      have hmem : e.1 ∈ (calculate_credit cexParameters).map Prod.fst :=
        List.mem_map_of_mem _ he
      rw [calculate_credit_keys] at hmem
      exact creditYears_pos hmem
    obtain ⟨v, -, hE⟩ := investmentEntry_ok cexParameters.acceptablePayment
      cexParameters.investmentRate cexParameters.expectedInflation e.1 e.2
      (by norm_num [cexParameters]) hy
    exact ⟨(e.1,
      { monthly_payment := max cexParameters.acceptablePayment
          e.2.monthly_payment
        total_cost := e.2.total_cost - v
        total_cost_adjusted := round2 ((e.2.total_cost - v) /
          (1 + cexParameters.expectedInflation / 100) ^ e.1)
        investment_balance := round2 v }),
      by rw [hE, exceptMap_ok], rfl, rfl⟩
  obtain ⟨out, hout, -, -⟩ :=
    mapE_ok_strong Prod.fst Prod.fst (fun _ => true) _
      (calculate_credit cexParameters) h
  have hmem9 : ((9 : ℕ), creditEntry cexParameters.creditAmount
      (cexParameters.creditRate / 100 / 12)
      (cexParameters.expectedInflation / 100) 9) ∈
      calculate_credit cexParameters :=
    List.mem_map_of_mem _ (by decide : (9 : ℕ) ∈ creditYears)
  have hbad : ((investmentEntry cexParameters.acceptablePayment
      cexParameters.investmentRate cexParameters.expectedInflation (9 : ℕ)
      (creditEntry cexParameters.creditAmount
        (cexParameters.creditRate / 100 / 12)
        (cexParameters.expectedInflation / 100) 9)).map
      (fun r => ((9 : ℕ), r))) =
      .ok ((9 : ℕ),
        ⟨200001 / 200, 919999 / 10, 919999 / 10, 80001 / 10⟩) := by
    norm_num [cexParameters, investmentEntry, creditEntry,
      _calculate_monthly_payment, _apply_inflation_adjustment,
      calculate_simple_investment, round2, roundHalfEven, exceptBind_ok,
      exceptPure_eq, exceptMap_ok]
  have hin : ((9 : ℕ), (⟨200001 / 200, 919999 / 10, 919999 / 10, 80001 / 10⟩ :
      CreditCalculationResult)) ∈ out :=
    mapE_mem _ (calculate_credit cexParameters) out hout _ hmem9 _ hbad
  have hfieldbad : allFields2dec
      (⟨200001 / 200, 919999 / 10, 919999 / 10, 80001 / 10⟩ :
        CreditCalculationResult) = false := by
    norm_num [allFields2dec, is2dec, round2, roundHalfEven]
  have hallf : (out.all fun e => allFields2dec e.2) = false := by
    cases hall : (out.all fun e => allFields2dec e.2) with
    | false => rfl
    | true =>
      exfalso
      have h2 := List.all_eq_true.1 hall _ hin
      simp [hfieldbad] at h2
  simp only [calculate_credit_with_investment]
  rw [hout, exceptMap_ok, hallf]

/-! ## Claim C10: the investment sweep does not mutate its input -/

lemma sweepHeap_frame (p : CreditParameters) :
    ∀ (input : List (ℕ × ℕ)) (h0 : RecordHeap) (acc : List (ℕ × ℕ))
      (h1 : RecordHeap) (out : List (ℕ × ℕ)),
      investmentSweepHeap p input h0 acc = .ok (h1, out) →
      h0.cells.length ≤ h1.cells.length ∧
      (∀ a, a < h0.cells.length → h1.read a = h0.read a) ∧
      (∀ e ∈ out, e ∈ acc.reverse ∨
        (h0.cells.length ≤ e.2 ∧ e.2 < h1.cells.length)) := by
  intro input
  induction input with
  | nil =>
    intro h0 acc h1 out h
    simp only [investmentSweepHeap] at h
    injection h with h
    injection h with ha hb
    subst ha
    subst hb
    exact ⟨le_refl _, fun a _ => rfl, fun e he => Or.inl he⟩
  | cons pr rest ih =>
    intro h0 acc h1 out h
    obtain ⟨years, addr⟩ := pr
    simp only [investmentSweepHeap] at h
    cases hread : h0.read addr with
    | none =>
      rw [hread] at h
      rw [exceptBind_error] at h
      exact Except.noConfusion h
    | some data =>
      rw [hread] at h
      dsimp only at h
      rw [exceptBind_ok] at h
      cases hent : investmentEntry p.acceptablePayment p.investmentRate
        p.expectedInflation years data with
      | error e =>
        rw [hent, exceptBind_error] at h
        exact Except.noConfusion h
      | ok r =>
        rw [hent, exceptBind_ok] at h
        simp only [RecordHeap.alloc] at h
        obtain ⟨hlen, hreads, houts⟩ :=
          ih ⟨h0.cells ++ [r]⟩ ((years, h0.cells.length) :: acc) h1 out h
        have hlen2 : h0.cells.length + 1 ≤ h1.cells.length := by
          simpa using hlen
        refine ⟨by omega, ?_, ?_⟩
        · intro a ha
          rw [hreads a (by simp; omega)]
          simp only [RecordHeap.read]
          exact List.get?_append ha
        · intro e he
          rcases houts e he with hacc | hnew
          · rw [List.reverse_cons] at hacc
            rcases List.mem_append.1 hacc with hold | hnew2
            · exact Or.inl hold
            · have heq : e = (years, h0.cells.length) := by simpa using hnew2
              subst heq
              exact Or.inr ⟨le_refl _, by omega⟩
          · refine Or.inr ⟨?_, hnew.2⟩
            have := hnew.1
            simp at this
            omega

/-- C10: `calculate_credit_with_investment` (in the heap model that makes
Python dict mutation observable) leaves its `credit_results` argument
unchanged — after the call, reading any address that existed before the call
yields the record it held before — and the returned mapping is fresh: every
record address in the output was allocated by the call itself. -/
theorem investment_sweep_preserves_input_records
    (input : List (ℕ × ℕ)) (p : CreditParameters) (h0 h1 : RecordHeap)
    (out : List (ℕ × ℕ))
    (hrun : calculate_credit_with_investment_heap input p h0 = .ok (h1, out)) :
    (∀ a, a < h0.cells.length → h1.read a = h0.read a)
      ∧ ∀ e ∈ out, h0.cells.length ≤ e.2 ∧ e.2 < h1.cells.length := by
  obtain ⟨-, hreads, houts⟩ := sweepHeap_frame p input h0 [] h1 out hrun
  refine ⟨hreads, fun e he => ?_⟩
  rcases houts e he with h' | h'
  · simp at h'
  · exact h'

/-- Witness for C10: one input record at address 0, swept with all-zero
parameters; the pre-existing cell reads the same after the call. -/
theorem investment_sweep_preserves_input_records_witness :
    RecordHeap.read ⟨[⟨1, 2, 3, 4⟩, ⟨1, 2, 2, 0⟩]⟩ 0 =
      RecordHeap.read ⟨[⟨1, 2, 3, 4⟩]⟩ 0 :=
  (investment_sweep_preserves_input_records [(3, 0)] ⟨0, 0, 0, 0, 0⟩
      ⟨[⟨1, 2, 3, 4⟩]⟩ ⟨[⟨1, 2, 3, 4⟩, ⟨1, 2, 2, 0⟩]⟩ [(3, 1)]
      (by norm_num [calculate_credit_with_investment_heap,
        investmentSweepHeap, investmentEntry, calculate_simple_investment,
        RecordHeap.read, RecordHeap.alloc, round2, roundHalfEven,
        exceptBind_ok, exceptPure_eq])).1 0 (by simp)
